import Mathlib

/-!
Verification of the borealis rx signal processing core.

This file gives a shallow embedding of the GPU decimation kernels in
src/rx_signal_processing/decimate.cu (the kernels decimate1024 and decimate2048
and the device helper parallel_reduce) and of the host-side DSPCore pipeline in
dsp.cu (kernel selection, timing/ack messages, accessor functions, teardown and
the callback traces), and proves or refutes the specification's claims about
them.

Modelling conventions:
- cuComplex values (two 32-bit float lanes) are modelled as pairs of scalars
  drawn from an arbitrary commutative ring, with cuCaddf / cuCmulf as
  componentwise add and complex multiply; the claims are about which
  sample-tap products are combined and where they are written, so the scalar
  arithmetic is idealised to be exact.
- A CUDA thread block (blockDim.x = Bx, blockDim.y = By) is modelled by its
  shared-memory array as a function from tap offsets to values; one
  synchronised step of the tree reduction becomes one simultaneous array
  transformation (the writes of a step are disjoint from its reads whenever
  the launch geometry makes the step race free, which holds at every
  configuration any theorem below is stated about).
- Warps are the groups of 32 consecutive threads in linearised
  (threadIdx.y * blockDim.x + threadIdx.x) order, as in the CUDA execution
  model.  __shfl_down(v, delta, 32) yields the value of lane (lane + delta),
  or the calling lane's own value when lane + delta falls outside the warp;
  the theorems below are only stated at configurations where every shuffling
  warp is fully populated, so this total model agrees with the hardware.
-/

/-- Complex baseband sample: two float lanes (I, Q).  The lane arithmetic is
idealised to an arbitrary commutative ring R of scalars (every IEEE float
value is a rational, so R = Rat or R = Int instantiate it; witnesses and
counterexamples below use R = Int so that the kernel can evaluate them). -/
structure Cplx (R : Type) where
  re : R
  im : R
deriving DecidableEq

variable {R : Type} [CommRing R]

instance : Zero (Cplx R) := ⟨⟨0, 0⟩⟩

/-- cuCaddf: componentwise complex addition. -/
instance : Add (Cplx R) := ⟨fun x y => ⟨x.re + y.re, x.im + y.im⟩⟩

/-- cuCmulf: complex multiplication. -/
instance : Mul (Cplx R) := ⟨fun x y => ⟨x.re * y.re - x.im * y.im, x.re * y.im + x.im * y.re⟩⟩

instance : AddCommMonoid (Cplx R) where
  nsmul := nsmulRec
  add_assoc a b c := congrArg₂ Cplx.mk (add_assoc _ _ _) (add_assoc _ _ _)
  zero_add a := congrArg₂ Cplx.mk (zero_add _) (zero_add _)
  add_zero a := congrArg₂ Cplx.mk (add_zero _) (add_zero _)
  add_comm a b := congrArg₂ Cplx.mk (add_comm _ _) (add_comm _ _)

/-- One guarded, __syncthreads-delimited step of the tree phase of
parallel_reduce as launched by decimate1024 (blockDim.x = N, tap_offset =
threadIdx.y * N + threadIdx.x).  The thread owning shared slot j has
threadIdx.x = j % N; it adds slot j + s into its own slot when the source's
guard (num_filter_taps >= 2*s) && (filter_tap_num < s) holds. -/
def redRound (N s : ℕ) (d : ℕ → Cplx R) : ℕ → Cplx R :=
  fun j => if 2 * s ≤ N ∧ j % N < s then d j + d (j + s) else d j

/-- Shared memory after the four guarded tree steps of parallel_reduce
(s = 512, 256, 128, 64), for the decimate1024 launch geometry. -/
def treePhase (N : ℕ) (d : ℕ → Cplx R) : ℕ → Cplx R :=
  redRound N 64 (redRound N 128 (redRound N 256 (redRound N 512 d)))

/-- One iteration of the final-warp shuffle loop of parallel_reduce:
total_sum = cuCaddf(total_sum, __shfl_down(total_sum, o)).  A lane whose
source lane l + o falls outside the 32-lane warp receives its own value
back from __shfl_down. -/
def shflStep (o : ℕ) (v : ℕ → Cplx R) : ℕ → Cplx R :=
  fun l => if l + o < 32 then v l + v (l + o) else v l + v l

/-- The shuffle loop `for (offset = 16; offset > 0; offset /= 2)` unrolled:
shflLoop 5 applies the steps with offsets 16, 8, 4, 2, 1 in source order. -/
def shflLoop : ℕ → (ℕ → Cplx R) → ℕ → Cplx R
  | 0, v, l => v l
  | m + 1, v, l => shflLoop m (shflStep (2 ^ m) v) l

/-- The five warp-synchronous shuffle-down steps (warpSize/2 = 16 down to 1). -/
def warpShuffleReduce (v : ℕ → Cplx R) : ℕ → Cplx R :=
  shflLoop 5 v

/-- The value a participating thread (threadIdx.x < 32) holds on entering the
shuffle loop: its own slot after the tree phase, plus slot + 32 when the
source's guard num_filter_taps >= 64 holds.  i is the thread's tap_offset. -/
def parRedEntry (N : ℕ) (d : ℕ → Cplx R) (i : ℕ) : Cplx R :=
  if 64 ≤ N then treePhase N d i + treePhase N d (i + 32) else treePhase N d i

/-- Return value of parallel_reduce(data, tap_offset) for thread
(threadIdx.x = tx, threadIdx.y = ty) in a decimate1024 launch: blockDim.x = N,
tap_offset = ty * N + tx (the thread's linearised index).  A thread with
tx < 32 runs the shuffle loop inside its warp (base 32 * (id / 32), lane
id % 32); other threads return their tree-phase slot. -/
def parRed (N : ℕ) (d : ℕ → Cplx R) (tx ty : ℕ) : Cplx R :=
  if tx < 32 then
    warpShuffleReduce (fun l => parRedEntry N d (32 * ((ty * N + tx) / 32) + l))
      ((ty * N + tx) % 32)
  else
    treePhase N d (ty * N + tx)

/-- The guarded load of decimate1024: thread (tx, ty) in block
(blockIdx.x = k, blockIdx.y = a) loads
original_samples[a * spa + k * dm + tx], or make_cuComplex(0, 0) when
k * dm + tx >= samples_per_antenna. -/
def dec1024Load (inS : ℕ → Cplx R) (dm spa : ℕ) (a k tx : ℕ) : Cplx R :=
  if spa ≤ k * dm + tx then 0 else inS (a * spa + (k * dm + tx))

/-- Shared memory of a decimate1024 block (blockIdx.x = k, blockIdx.y = a)
after every thread has stored cuCmulf(sample, filter_taps[tap_offset]) at its
tap_offset = ty * N + tx and the block has synchronised. -/
def dec1024Products (inS tap : ℕ → Cplx R) (dm spa N : ℕ) (a k : ℕ) : ℕ → Cplx R :=
  fun j => dec1024Load inS dm spa a k (j % N) * tap j

/-- The value decimate1024 writes for (frequency f, antenna a, output sample k):
the parallel_reduce result in the thread with threadIdx.x = 0 of frequency
row f. -/
def dec1024Out (inS tap : ℕ → Cplx R) (dm spa N : ℕ) (f a k : ℕ) : Cplx R :=
  parRed N (dec1024Products inS tap dm spa N a k) 0 f

/-- The linear offset decimate1024 writes to:
freq_offset + antenna_offset + dec_sample_num, with
freq_offset = threadIdx.y * gridDim.x * gridDim.y,
antenna_offset = blockIdx.y * samples_per_antenna / dm_rate and
gridDim.x = samples_per_antenna / dm_rate from create_grid
(C++ evaluates a * spa / dm left to right). -/
def dec1024OutIndex (dm spa A f a k : ℕ) : ℕ :=
  f * (spa / dm) * A + a * spa / dm + k

/-- The guarded two-sample load of decimate2048: thread (tx, ty) in block
(blockIdx.x = k, blockIdx.y = a) loads samples at
final_offset = a * spa + k * dm + 2 * tx and final_offset + 1, handling the
two bounds cases of the source (both samples out of range, only the second
out of range) by substituting make_cuComplex(0, 0). -/
def dec2048Load (inS : ℕ → Cplx R) (dm spa : ℕ) (a k tx : ℕ) : Cplx R × Cplx R :=
  if spa ≤ k * dm + 2 * tx then (0, 0)
  else if spa - 1 ≤ k * dm + 2 * tx then (inS (a * spa + (k * dm + 2 * tx)), 0)
  else (inS (a * spa + (k * dm + 2 * tx)), inS (a * spa + (k * dm + 2 * tx) + 1))

/-- Shared memory of a decimate2048 block launched with one frequency
(blockDim = (N/2, 1), so every thread's tap_offset = 2 * threadIdx.x and the
writes are race free) after each thread has stored
cuCmulf(sample_1, filter_taps[tap_offset]) at its tap_offset,
cuCmulf(sample_2, filter_taps[tap_offset + 1]) at tap_offset + 1, pre-summed
the pair into slot tap_offset, and the block has synchronised.  The thread
owning slot j is threadIdx.x = j / 2. -/
def dec2048Products (inS tap : ℕ → Cplx R) (dm spa : ℕ) (a k : ℕ) : ℕ → Cplx R :=
  fun j =>
    if j % 2 = 0 then
      (dec2048Load inS dm spa a k (j / 2)).1 * tap j +
        (dec2048Load inS dm spa a k (j / 2)).2 * tap (j + 1)
    else
      (dec2048Load inS dm spa a k (j / 2)).2 * tap j

/-- One guarded tree step of parallel_reduce as launched by decimate2048 with
one frequency: blockDim.x = Bx = num_taps / 2 and the thread with
threadIdx.x = tx owns shared slot tap_offset = 2 * tx, adding slot
tap_offset + s into it when (num_filter_taps >= 2*s) && (tx < s). -/
def redRound2 (Bx s : ℕ) (d : ℕ → Cplx R) : ℕ → Cplx R :=
  fun j => if 2 * s ≤ Bx ∧ j % 2 = 0 ∧ j / 2 < s then d j + d (j + s) else d j

/-- Shared memory after the four guarded tree steps for the decimate2048
launch geometry (one frequency). -/
def treePhase2 (Bx : ℕ) (d : ℕ → Cplx R) : ℕ → Cplx R :=
  redRound2 Bx 64 (redRound2 Bx 128 (redRound2 Bx 256 (redRound2 Bx 512 d)))

/-- The value thread tx holds on entering the shuffle loop in a decimate2048
launch with one frequency: slot 2 * tx after the tree phase, plus slot
2 * tx + 32 when num_filter_taps >= 64. -/
def parRed2Entry (Bx : ℕ) (d : ℕ → Cplx R) (tx : ℕ) : Cplx R :=
  if 64 ≤ Bx then treePhase2 Bx d (2 * tx) + treePhase2 Bx d (2 * tx + 32)
  else treePhase2 Bx d (2 * tx)

/-- Return value of parallel_reduce(data, tap_offset) for thread tx in a
decimate2048 launch with one frequency (the thread's linearised index is tx
itself). -/
def parRed2 (Bx : ℕ) (d : ℕ → Cplx R) (tx : ℕ) : Cplx R :=
  if tx < 32 then
    warpShuffleReduce (fun l => parRed2Entry Bx d (32 * (tx / 32) + l)) (tx % 32)
  else
    treePhase2 Bx d (2 * tx)

/-- The value decimate2048 (launched with one frequency, blockDim.x = N / 2
per decimate2048_wrapper's create_block(num_taps_per_filter / 2, num_freqs))
writes for (antenna a, output sample k). -/
def dec2048Out (inS tap : ℕ → Cplx R) (dm spa N : ℕ) (a k : ℕ) : Cplx R :=
  parRed2 (N / 2) (dec2048Products inS tap dm spa a k) 0

/-- Kernel choice made by DSPCore::call_decimate.  The first branch of the
source (num_taps_per_filter * num_freqs > 2 * maxThreadsPerBlock) contains
only a TODO comment: nothing is launched and nothing is reported. -/
inductive DecSelect where
  | noLaunch
  | launch2048
  | launch1024
deriving DecidableEq

/-- DSPCore::call_decimate's branch structure: strictly more than
2 * maxThreadsPerBlock total taps falls into the empty TODO branch; strictly
more than maxThreadsPerBlock selects decimate2048_wrapper; otherwise
decimate1024_wrapper. -/
def call_decimate_select (numTapsPerFilter numFreqs maxThreadsPerBlock : ℕ) : DecSelect :=
  if 2 * maxThreadsPerBlock < numTapsPerFilter * numFreqs then DecSelect.noLaunch
  else if maxThreadsPerBlock < numTapsPerFilter * numFreqs then DecSelect.launch2048
  else DecSelect.launch1024

/-- The payload of the message DSPCore::send_timing serialises: the
SigProcPacket fields set by the source (sequence_num and kerneltime). -/
structure TimingMsg where
  sequenceNum : ℕ
  kernelTime : ℚ
deriving DecidableEq

/-- DSPCore::send_timing: the message always carries the instance's
sequence_num and the decimate_kernel_timing_ms computed by stop_timing; no
branch of the source substitutes a sentinel or attaches a status. -/
def send_timing_msg (sequenceNum : ℕ) (decimateKernelTimingMs : ℚ) : TimingMsg :=
  { sequenceNum := sequenceNum, kernelTime := decimateKernelTimingMs }

/-- The seven device buffer pointers a DSPCore instance owns (pointers
abstracted as natural numbers). -/
structure DSPPtrs where
  rf_samples_d : ℕ
  first_stage_bp_filters_d : ℕ
  second_stage_filters_d : ℕ
  third_stage_filters_d : ℕ
  first_stage_output_d : ℕ
  second_stage_output_d : ℕ
  third_stage_output_d : ℕ
deriving DecidableEq

/-- DSPCore::get_second_stage_filter_p. -/
def get_second_stage_filter_p (s : DSPPtrs) : ℕ :=
  s.second_stage_filters_d

/-- DSPCore::get_third_stage_filter_p. -/
def get_third_stage_filter_p (s : DSPPtrs) : ℕ :=
  s.third_stage_filters_d

/-- DSPCore::get_second_stage_output_p: the source returns
second_stage_filters_d. -/
def get_second_stage_output_p (s : DSPPtrs) : ℕ :=
  s.second_stage_filters_d

/-- DSPCore::get_third_stage_output_p: the source returns
third_stage_filters_d. -/
def get_third_stage_output_p (s : DSPPtrs) : ℕ :=
  s.third_stage_filters_d

/-- DSPCore::allocate_second_stage_output: cudaMalloc stores a fresh device
pointer p into second_stage_output_d. -/
def allocate_second_stage_output (s : DSPPtrs) (p : ℕ) : DSPPtrs :=
  { s with second_stage_output_d := p }

/-- DSPCore::allocate_third_stage_output: cudaMalloc stores a fresh device
pointer p into third_stage_output_d. -/
def allocate_third_stage_output (s : DSPPtrs) (p : ℕ) : DSPPtrs :=
  { s with third_stage_output_d := p }

/-- Observable events of one pulse sequence's pipeline. -/
inductive Ev where
  | h2dCopyDone
  | ackSent (sequenceNum : ℕ)
  | kernelStartRecorded
  | stage1Launched
  | stage2Launched
  | stage3Launched
  | d2hCopyDone
  | stopRecorded
  | stopTimingDone
  | timingSent (sequenceNum : ℕ)
  | deviceBuffersFreed
  | eventsDestroyed
  | streamDestroyed
  | shrMemRemoved
  | shrMemHandlerDeleted
  | instanceDeleted
deriving DecidableEq

/-- Events emitted by DSPCore::send_ack: one message on the ack socket. -/
def send_ack_trace (sequenceNum : ℕ) : List Ev :=
  [Ev.ackSent sequenceNum]

/-- Events emitted by DSPCore::start_decimate_timing: the kernel_start event
is recorded on the stream. -/
def start_decimate_timing_trace : List Ev :=
  [Ev.kernelStartRecorded]

/-- Events of initial_memcpy_callback_handler: the source calls
dp->send_ack() and then dp->start_decimate_timing(), in that program order. -/
def initial_memcpy_handler_trace (sequenceNum : ℕ) : List Ev :=
  send_ack_trace sequenceNum ++ start_decimate_timing_trace

/-- Events of DSPCore::clear_device_and_destroy in source order: the seven
cudaFree calls and the cudaFreeHost call, the three cudaEventDestroy calls,
cudaStreamDestroy, then shr_mem->remove_shr_mem() and delete shr_mem. -/
def clear_device_and_destroy_trace : List Ev :=
  [Ev.deviceBuffersFreed, Ev.eventsDestroyed, Ev.streamDestroyed,
    Ev.shrMemRemoved, Ev.shrMemHandlerDeleted]

/-- Events of DSPCore::send_timing: one message on the timing socket. -/
def send_timing_trace (sequenceNum : ℕ) : List Ev :=
  [Ev.timingSent sequenceNum]

/-- Events of the anonymous-namespace postprocess function in source order:
stop_timing, send_timing, clear_device_and_destroy, delete dp. -/
def postprocess_trace (sequenceNum : ℕ) : List Ev :=
  Ev.stopTimingDone :: (send_timing_trace sequenceNum ++
    clear_device_and_destroy_trace ++ [Ev.instanceDeleted])

/-- Modelled from the spec: the per-sequence orchestration that enqueues the
H2D copy, attaches initial_memcpy_callback, launches the three decimation
stages, enqueues the D2H copy and attaches cuda_postprocessing_callback lives
in the rx signal processing main loop, which is not among the sources; the
trace below follows the spec's step order (section 4.5, steps 1 to 8),
splicing in the source-derived traces of the two callbacks
(initial_memcpy_handler_trace after the copy completes, postprocess_trace
after the stream drains). -/
def sequence_trace (sequenceNum : ℕ) : List Ev :=
  Ev.h2dCopyDone :: (initial_memcpy_handler_trace sequenceNum ++
    [Ev.stage1Launched, Ev.stage2Launched, Ev.stage3Launched,
      Ev.d2hCopyDone, Ev.stopRecorded] ++
    postprocess_trace sequenceNum)

/-- Event e1 strictly precedes every occurrence of event e2 in the trace. -/
def Precedes (e1 e2 : Ev) (tr : List Ev) : Prop :=
  ∀ j, tr.get? j = some e2 → ∃ i, i < j ∧ tr.get? i = some e1

/-- Liveness flags of every resource DSPCore::clear_device_and_destroy
releases, in the source's release order: the seven device buffers, the pinned
host buffer, the three timing events, the stream, and the shared-memory
slot/handler. -/
structure DevResources where
  rfSamples : Bool
  firstStageBpFilters : Bool
  secondStageFilters : Bool
  thirdStageFilters : Bool
  firstStageOutput : Bool
  secondStageOutput : Bool
  thirdStageOutput : Bool
  hostOutput : Bool
  initialStartEvent : Bool
  kernelStartEvent : Bool
  stopEvent : Bool
  streamAlive : Bool
  shrMemOpen : Bool
deriving DecidableEq

/-- Releasing one resource: the handle becomes dead; freeing or destroying a
handle that is already dead is an error (cudaFree / cudaEventDestroy /
cudaStreamDestroy return an error status for an invalid handle, and
remove_shr_mem / delete on an already-destroyed handler fails), which is
accumulated into the error flag. -/
def releaseRes (alive : Bool) (err : Bool) : Bool × Bool :=
  (false, err || !alive)

/-- DSPCore::clear_device_and_destroy over the resource flags: releases every
resource in source order and reports whether any release failed. -/
def clear_device_and_destroy (s : DevResources) : DevResources × Bool :=
  let r1 := releaseRes s.rfSamples false
  let r2 := releaseRes s.firstStageBpFilters r1.2
  let r3 := releaseRes s.secondStageFilters r2.2
  let r4 := releaseRes s.thirdStageFilters r3.2
  let r5 := releaseRes s.firstStageOutput r4.2
  let r6 := releaseRes s.secondStageOutput r5.2
  let r7 := releaseRes s.thirdStageOutput r6.2
  let r8 := releaseRes s.hostOutput r7.2
  let r9 := releaseRes s.initialStartEvent r8.2
  let r10 := releaseRes s.kernelStartEvent r9.2
  let r11 := releaseRes s.stopEvent r10.2
  let r12 := releaseRes s.streamAlive r11.2
  let r13 := releaseRes s.shrMemOpen r12.2
  (⟨r1.1, r2.1, r3.1, r4.1, r5.1, r6.1, r7.1, r8.1, r9.1, r10.1, r11.1,
    r12.1, r13.1⟩, r13.2)

/-- A fully constructed DSPCore instance: every resource is live. -/
def allResourcesLive : DevResources :=
  ⟨true, true, true, true, true, true, true, true, true, true, true, true, true⟩

/-- The state after teardown: every resource has been released. -/
def allResourcesDead : DevResources :=
  ⟨false, false, false, false, false, false, false, false, false, false,
    false, false, false⟩

/-! Helper lemmas. -/

theorem Cplx.zero_mul' (x : Cplx R) : (0 : Cplx R) * x = 0 :=
  congrArg₂ Cplx.mk (by show 0 * x.re - 0 * x.im = 0; ring)
    (by show 0 * x.im + 0 * x.re = 0; ring)

theorem sum_range_split (f : ℕ → Cplx R) (m n : ℕ) :
    ∑ j ∈ Finset.range (m + n), f j =
      (∑ j ∈ Finset.range m, f j) + ∑ j ∈ Finset.range n, f (m + j) := by
  induction n with
  | zero => simp
  | succ n ih =>
    rw [Nat.add_succ, Finset.sum_range_succ, ih, Finset.sum_range_succ, add_assoc]

theorem shflLoop_sum (m : ℕ) : ∀ (v : ℕ → Cplx R) (l : ℕ), l + 2 ^ m ≤ 32 →
    shflLoop m v l = ∑ j ∈ Finset.range (2 ^ m), v (l + j) := by
  induction m with
  | zero =>
    intro v l _
    simp [shflLoop]
  | succ m ih =>
    intro v l hl
    have hpos : 0 < 2 ^ m := Nat.pos_pow_of_pos m (by norm_num)
    have h2 : 2 ^ (m + 1) = 2 ^ m + 2 ^ m := by
      rw [pow_succ]; omega
    have hl' : l + 2 ^ m ≤ 32 := by omega
    show shflLoop m (shflStep (2 ^ m) v) l = _
    rw [ih _ l hl']
    have hstep : ∀ j ∈ Finset.range (2 ^ m),
        shflStep (2 ^ m) v (l + j) = v (l + j) + v (l + j + 2 ^ m) := by
      intro j hj
      simp only [Finset.mem_range] at hj
      have hin : l + j + 2 ^ m < 32 := by omega
      simp [shflStep, hin]
    rw [Finset.sum_congr rfl hstep, Finset.sum_add_distrib, h2, sum_range_split]
    congr 1
    apply Finset.sum_congr rfl
    intro j _
    congr 1
    omega

theorem warpShuffleReduce_zero (v : ℕ → Cplx R) :
    warpShuffleReduce v 0 = ∑ j ∈ Finset.range 32, v j := by
  have h := shflLoop_sum 5 v 0 (by norm_num)
  simpa [warpShuffleReduce] using h

theorem redRound_id (N s : ℕ) (d : ℕ → Cplx R) (h : ¬ 2 * s ≤ N) :
    redRound N s d = d := by
  funext j
  simp [redRound, h]

theorem redRound_sum (N s : ℕ) (d : ℕ → Cplx R) (ty : ℕ) (h2 : 2 * s ≤ N) :
    ∑ j ∈ Finset.range s, redRound N s d (ty * N + j) =
      ∑ j ∈ Finset.range (2 * s), d (ty * N + j) := by
  have h1 : ∀ j ∈ Finset.range s,
      redRound N s d (ty * N + j) = d (ty * N + j) + d (ty * N + j + s) := by
    intro j hj
    simp only [Finset.mem_range] at hj
    have hjN : j < N := by omega
    have hmod : (ty * N + j) % N = j := by
      rw [Nat.mul_comm ty N, Nat.mul_add_mod, Nat.mod_eq_of_lt hjN]
    simp [redRound, h2, hmod, hj]
  rw [Finset.sum_congr rfl h1, Finset.sum_add_distrib, two_mul, sum_range_split]
  congr 1
  apply Finset.sum_congr rfl
  intro j _
  congr 1
  omega

theorem sum_split64 (f : ℕ → Cplx R) (B : ℕ) :
    ∑ l ∈ Finset.range 32, (f (B + l) + f (B + l + 32)) =
      ∑ l ∈ Finset.range 64, f (B + l) := by
  rw [Finset.sum_add_distrib, show (64 : ℕ) = 32 + 32 from rfl, sum_range_split]
  congr 1

theorem treePhase_sum (e : ℕ) (d : ℕ → Cplx R) (ty : ℕ) (he5 : 5 ≤ e) (he10 : e ≤ 10) :
    ∑ j ∈ Finset.range (min (2 ^ e) 64), treePhase (2 ^ e) d (ty * 2 ^ e + j) =
      ∑ j ∈ Finset.range (2 ^ e), d (ty * 2 ^ e + j) := by
  interval_cases e
  · -- 2 ^ 5 = 32: no tree step is active
    rw [treePhase, redRound_id _ 512 _ (by norm_num), redRound_id _ 256 _ (by norm_num),
      redRound_id _ 128 _ (by norm_num), redRound_id _ 64 _ (by norm_num)]
    norm_num
  · -- 2 ^ 6 = 64: no tree step is active
    rw [treePhase, redRound_id _ 512 _ (by norm_num), redRound_id _ 256 _ (by norm_num),
      redRound_id _ 128 _ (by norm_num), redRound_id _ 64 _ (by norm_num)]
    norm_num
  · -- 2 ^ 7 = 128: only the s = 64 step is active
    rw [treePhase, redRound_id _ 512 _ (by norm_num), redRound_id _ 256 _ (by norm_num),
      redRound_id _ 128 _ (by norm_num)]
    have h64 := redRound_sum (2 ^ 7) 64 d ty (by norm_num)
    norm_num at h64 ⊢
    exact h64
  · -- 2 ^ 8 = 256: steps s = 128 and s = 64 are active
    rw [treePhase, redRound_id _ 512 _ (by norm_num), redRound_id _ 256 _ (by norm_num)]
    have h64 := redRound_sum (2 ^ 8) 64 (redRound (2 ^ 8) 128 d) ty (by norm_num)
    have h128 := redRound_sum (2 ^ 8) 128 d ty (by norm_num)
    norm_num at h64 h128 ⊢
    rw [h64, h128]
  · -- 2 ^ 9 = 512: steps s = 256, 128, 64 are active
    rw [treePhase, redRound_id _ 512 _ (by norm_num)]
    have h64 := redRound_sum (2 ^ 9) 64
      (redRound (2 ^ 9) 128 (redRound (2 ^ 9) 256 d)) ty (by norm_num)
    have h128 := redRound_sum (2 ^ 9) 128 (redRound (2 ^ 9) 256 d) ty (by norm_num)
    have h256 := redRound_sum (2 ^ 9) 256 d ty (by norm_num)
    norm_num at h64 h128 h256 ⊢
    rw [h64, h128, h256]
  · -- 2 ^ 10 = 1024: all four steps are active
    rw [treePhase]
    have h64 := redRound_sum (2 ^ 10) 64
      (redRound (2 ^ 10) 128 (redRound (2 ^ 10) 256 (redRound (2 ^ 10) 512 d))) ty
      (by norm_num)
    have h128 := redRound_sum (2 ^ 10) 128
      (redRound (2 ^ 10) 256 (redRound (2 ^ 10) 512 d)) ty (by norm_num)
    have h256 := redRound_sum (2 ^ 10) 256 (redRound (2 ^ 10) 512 d) ty (by norm_num)
    have h512 := redRound_sum (2 ^ 10) 512 d ty (by norm_num)
    norm_num at h64 h128 h256 h512 ⊢
    rw [h64, h128, h256, h512]

theorem parRed_rowSum (N : ℕ) (d : ℕ → Cplx R) (ty : ℕ) (hpow : ∃ e, N = 2 ^ e)
    (hlo : 32 ≤ N) (hhi : N ≤ 1024) :
    parRed N d 0 ty = ∑ t ∈ Finset.range N, d (ty * N + t) := by
  obtain ⟨e, rfl⟩ := hpow
  have he5 : 5 ≤ e := by
    by_contra h
    push_neg at h
    interval_cases e <;> norm_num at hlo
  have he10 : e ≤ 10 := by
    by_contra h
    push_neg at h
    have h11 : (2 : ℕ) ^ 11 ≤ 2 ^ e := Nat.pow_le_pow_right (by norm_num) (by omega)
    norm_num at h11
    omega
  have h32 : (32 : ℕ) ∣ ty * 2 ^ e := by
    have h5 : (2 : ℕ) ^ 5 ∣ 2 ^ e := pow_dvd_pow 2 he5
    exact Dvd.dvd.mul_left (by norm_num at h5 ⊢; exact h5) ty
  have hb : 32 * ((ty * 2 ^ e + 0) / 32) = ty * 2 ^ e := by
    rw [Nat.add_zero, Nat.mul_div_cancel' h32]
  have hlane : (ty * 2 ^ e + 0) % 32 = 0 := by
    obtain ⟨c, hc⟩ := h32
    rw [Nat.add_zero, hc, Nat.mul_mod_right]
  rw [parRed, if_pos (by norm_num : (0 : ℕ) < 32), hb, hlane, warpShuffleReduce_zero]
  rcases Nat.eq_or_lt_of_le he5 with he | he6
  · -- N = 32: the entry value is the bare tree-phase slot
    subst he
    have hnolt : ¬ (64 : ℕ) ≤ 2 ^ 5 := by norm_num
    have hs := treePhase_sum 5 d ty (by norm_num) (by norm_num)
    simp only [parRedEntry, hnolt, if_false]
    norm_num at hs ⊢
    exact hs
  · -- 64 ≤ N: the entry value pre-adds slot + 32
    have h64 : (64 : ℕ) ≤ 2 ^ e := by
      calc (64 : ℕ) = 2 ^ 6 := by norm_num
        _ ≤ 2 ^ e := Nat.pow_le_pow_right (by norm_num) he6
    simp only [parRedEntry, h64, if_true]
    rw [sum_split64 (treePhase (2 ^ e) d) (ty * 2 ^ e)]
    have hs := treePhase_sum e d ty he5 he10
    rwa [Nat.min_eq_right h64] at hs

/-! Claim theorems. -/

/-- Claim C3, amended: the claim as frozen allows any power-of-two row length
4 <= N <= 1024, but warps are formed from 32 consecutive linearised threads,
so for N < 32 the final shuffle-down phase mixes entries of different
frequency rows (see the counterexample); the row-sum property holds once the
filter length is additionally at least 32, i.e. 32 <= N <= 1024.  For every
such N, every block of F frequency rows of N entries, and every row ty, the
thread with threadIdx.x = 0 of row ty obtains from parallel_reduce the sum of
all N entries of its row, via the guarded tree steps and the five
shuffle-down steps. -/
theorem parallel_reduce_row_total (N F : ℕ) (d : ℕ → Cplx R) (ty : ℕ)
    (hpow : ∃ e, N = 2 ^ e) (hlo : 32 ≤ N) (hblock : N * F ≤ 1024) (hty : ty < F) :
    parRed N d 0 ty = ∑ t ∈ Finset.range N, d (ty * N + t) := by
  have hhi : N ≤ 1024 := by
    calc N = N * 1 := by ring
      _ ≤ N * F := Nat.mul_le_mul_left N (by omega)
      _ ≤ 1024 := hblock
  exact parRed_rowSum N d ty hpow hlo hhi

/-- Claim C3, witness: the amended theorem applied to the row 0, 1, ..., 31 at
N = 32, F = 1. -/
theorem parallel_reduce_row_total_witness :
    parRed 32 (fun j => ⟨(j : ℤ), 0⟩) 0 0 =
      ∑ t ∈ Finset.range 32, (⟨((0 * 32 + t : ℕ) : ℤ), 0⟩ : Cplx ℤ) :=
  parallel_reduce_row_total 32 1 (fun j => ⟨(j : ℤ), 0⟩) 0 ⟨5, rfl⟩ (by norm_num)
    (by norm_num) (by norm_num)

/-- Claim C3, counterexample: with row length N = 4 in a block of 8 frequency
rows (32 threads, one full warp), thread (0, 0) returns the sum of all 32
warp entries, 0 + 1 + ... + 31 = 496, not the row sum 0 + 1 + 2 + 3 = 6. -/
theorem parallel_reduce_short_row_counterexample :
    parRed 4 (fun j => ⟨(j : ℤ), 0⟩) 0 0 ≠
      ∑ t ∈ Finset.range 4, (⟨((0 * 4 + t : ℕ) : ℤ), 0⟩ : Cplx ℤ) := by
  decide

/-- Claim C1, amended: the claim as frozen requires only that num_taps is a
power of two with num_taps * num_freqs <= 1024; as the counterexample shows,
a filter shorter than one warp (num_taps < 32) makes the final shuffle phase
of the reduction mix frequency rows, so the amended claim additionally
requires num_taps >= 32.  Under those preconditions (and samples_per_antenna
divisible by dm_rate), the value decimate1024 writes for frequency f,
antenna a, output sample k goes to linear offset
f * (spa / dm) * A + a * (spa / dm) + k and equals
sum over t < num_taps of in[a * spa + k * dm + t] * tap[f * num_taps + t],
where a term with k * dm + t >= spa contributes zero. -/
theorem decimate1024_out_value (inS tap : ℕ → Cplx R) (dm spa N F A f a k : ℕ)
    (hpow : ∃ e, N = 2 ^ e) (hlo : 32 ≤ N) (hblock : N * F ≤ 1024)
    (hdm : dm ∣ spa) (hf : f < F) (ha : a < A) (hk : k < spa / dm) :
    dec1024OutIndex dm spa A f a k = f * (spa / dm) * A + a * (spa / dm) + k ∧
    dec1024Out inS tap dm spa N f a k =
      ∑ t ∈ Finset.range N,
        if k * dm + t < spa then inS (a * spa + (k * dm + t)) * tap (f * N + t)
        else 0 := by
  constructor
  · unfold dec1024OutIndex
    rw [Nat.mul_div_assoc a hdm]
  · have hhi : N ≤ 1024 := by
      calc N = N * 1 := by ring
        _ ≤ N * F := Nat.mul_le_mul_left N (by omega)
        _ ≤ 1024 := hblock
    unfold dec1024Out
    rw [parRed_rowSum N _ f hpow hlo hhi]
    apply Finset.sum_congr rfl
    intro t ht
    simp only [Finset.mem_range] at ht
    have hmod : (f * N + t) % N = t := by
      rw [Nat.mul_comm f N, Nat.mul_add_mod, Nat.mod_eq_of_lt ht]
    unfold dec1024Products dec1024Load
    rw [hmod]
    by_cases hcase : spa ≤ k * dm + t
    · rw [if_pos hcase, if_neg (by omega), Cplx.zero_mul']
    · rw [if_neg hcase, if_pos (by omega)]

/-- Claim C1, witness: the amended theorem applied at num_taps = 32,
num_freqs = 1, dm_rate = 1, samples_per_antenna = 32, one antenna, constant
input and taps. -/
theorem decimate1024_out_value_witness :
    dec1024OutIndex 1 32 1 0 0 0 = 0 * (32 / 1) * 1 + 0 * (32 / 1) + 0 ∧
    dec1024Out (fun _ => (⟨1, 0⟩ : Cplx ℤ)) (fun _ => ⟨1, 0⟩) 1 32 32 0 0 0 =
      ∑ t ∈ Finset.range 32,
        if 0 * 1 + t < 32 then (⟨1, 0⟩ : Cplx ℤ) * ⟨1, 0⟩ else 0 :=
  decimate1024_out_value (fun _ => (⟨1, 0⟩ : Cplx ℤ)) (fun _ => ⟨1, 0⟩)
    1 32 32 1 1 0 0 0 ⟨5, rfl⟩ (by norm_num) (by norm_num) (by norm_num)
    (by norm_num) (by norm_num) (by norm_num)

/-- Claim C1, counterexample to the claim as frozen: num_taps = 16 and
num_freqs = 2 satisfy the claim's preconditions (power of two,
16 * 2 = 32 <= 1024, dm_rate 1 divides spa = 16), yet with all-one input and
taps, output (f, a, k) = (0, 0, 0) is 32 (the shuffle phase sums the whole
32-lane warp, which holds both frequency rows), not the claimed row sum 16. -/
theorem decimate1024_sub_warp_counterexample :
    dec1024Out (fun _ => (⟨1, 0⟩ : Cplx ℤ)) (fun _ => ⟨1, 0⟩) 1 16 16 0 0 0 ≠
      ∑ t ∈ Finset.range 16,
        (if 0 * 1 + t < 16 then (⟨1, 0⟩ : Cplx ℤ) * ⟨1, 0⟩ else 0) := by
  decide

/-- Claim C2: evaluation of both kernels at the failing input
num_taps = 128, num_freqs = 1, dm_rate = 1, samples_per_antenna = 128, one
antenna, in[t] = t, all taps 1 (a race-free configuration for both kernels,
so the models are exact).  decimate1024 returns the correct FIR sum 8128;
decimate2048 returns 6080, because parallel_reduce's offsets (+32, and the
shuffle lanes) assume the per-thread partial sums sit in consecutive shared
slots while decimate2048 leaves them at stride 2 (slots 2*tx), so the final
warp double-counts pre-sums 16..31 and never reads pre-sums 48..63.  (For
num_freqs >= 2 the kernel is broken even earlier: tap_offset =
threadIdx.y * blockDim.x + 2 * threadIdx.x with blockDim.x = num_taps / 2
makes the frequency rows overlap in shared memory.) -/
theorem decimate2048_divergence_eval :
    dec1024Out (fun j => ⟨(j : ℤ), 0⟩) (fun _ => ⟨1, 0⟩) 1 128 128 0 0 0 = ⟨8128, 0⟩ ∧
    dec2048Out (fun j => ⟨(j : ℤ), 0⟩) (fun _ => ⟨1, 0⟩) 1 128 128 0 0 = ⟨6080, 0⟩ ∧
    dec2048Out (fun j => ⟨(j : ℤ), 0⟩) (fun _ => ⟨1, 0⟩) 1 128 128 0 0 ≠
      dec1024Out (fun j => ⟨(j : ℤ), 0⟩) (fun _ => ⟨1, 0⟩) 1 128 128 0 0 0 := by
  decide

/-- Claim C5: neither kernel ever reads original_samples at or past
antenna_offset + samples_per_antenna.  Stated as a frame property: for any
thread (block (k, a), threadIdx.x = tx), the guarded loads of both kernel
variants depend only on the samples of antenna a (indices
a * spa .. a * spa + spa - 1); out-of-range positions are replaced by zero
instead of being read. -/
theorem kernel_sample_reads_stay_in_antenna (inS inS' : ℕ → Cplx R)
    (dm spa a k tx : ℕ)
    (h : ∀ i, i < spa → inS (a * spa + i) = inS' (a * spa + i)) :
    dec1024Load inS dm spa a k tx = dec1024Load inS' dm spa a k tx ∧
    dec2048Load inS dm spa a k tx = dec2048Load inS' dm spa a k tx := by
  constructor
  · unfold dec1024Load
    by_cases h1 : spa ≤ k * dm + tx
    · rw [if_pos h1, if_pos h1]
    · rw [if_neg h1, if_neg h1]
      exact h _ (by omega)
  · unfold dec2048Load
    by_cases h1 : spa ≤ k * dm + 2 * tx
    · rw [if_pos h1, if_pos h1]
    · rw [if_neg h1, if_neg h1]
      by_cases h2 : spa - 1 ≤ k * dm + 2 * tx
      · rw [if_pos h2, if_pos h2, h _ (by omega)]
      · rw [if_neg h2, if_neg h2]
        have hnext : a * spa + (k * dm + 2 * tx) + 1 =
            a * spa + (k * dm + 2 * tx + 1) := by omega
        rw [h _ (by omega), hnext, h _ (by omega)]

/-- Claim C5, witness: two sample buffers that agree on antenna 0's four
samples but differ everywhere else give identical loads. -/
theorem kernel_sample_reads_stay_in_antenna_witness :
    (∀ i, i < 4 →
      (fun j => if j < 4 then (⟨1, 0⟩ : Cplx ℤ) else ⟨7, 0⟩) (0 * 4 + i) =
        (fun _ => (⟨1, 0⟩ : Cplx ℤ)) (0 * 4 + i)) ∧
    dec1024Load (fun j => if j < 4 then (⟨1, 0⟩ : Cplx ℤ) else ⟨7, 0⟩) 1 4 0 0 0 =
      dec1024Load (fun _ => (⟨1, 0⟩ : Cplx ℤ)) 1 4 0 0 0 ∧
    dec2048Load (fun j => if j < 4 then (⟨1, 0⟩ : Cplx ℤ) else ⟨7, 0⟩) 1 4 0 0 0 =
      dec2048Load (fun _ => (⟨1, 0⟩ : Cplx ℤ)) 1 4 0 0 0 := by
  refine ⟨by decide, ?_, ?_⟩
  · exact (kernel_sample_reads_stay_in_antenna
      (fun j => if j < 4 then (⟨1, 0⟩ : Cplx ℤ) else ⟨7, 0⟩)
      (fun _ => (⟨1, 0⟩ : Cplx ℤ)) 1 4 0 0 0 (by decide)).1
  · exact (kernel_sample_reads_stay_in_antenna
      (fun j => if j < 4 then (⟨1, 0⟩ : Cplx ℤ) else ⟨7, 0⟩)
      (fun _ => (⟨1, 0⟩ : Cplx ℤ)) 1 4 0 0 0 (by decide)).2

/-- Claim C4: get_second_stage_output_p returns the same device pointer as
get_second_stage_filter_p (the buffer second_stage_filters_d) and
get_third_stage_output_p the same as get_third_stage_filter_p
(third_stage_filters_d); when the output buffers are allocated at pointers
distinct from the filter pointers (as cudaMalloc guarantees for live
allocations), neither accessor returns the buffer allocated by
allocate_second_stage_output / allocate_third_stage_output. -/
theorem stage_output_accessors_alias_filters (s : DSPPtrs) (p q : ℕ)
    (hp : p ≠ s.second_stage_filters_d) (hq : q ≠ s.third_stage_filters_d) :
    get_second_stage_output_p s = get_second_stage_filter_p s ∧
    get_third_stage_output_p s = get_third_stage_filter_p s ∧
    get_second_stage_output_p (allocate_second_stage_output s p) ≠ p ∧
    get_third_stage_output_p (allocate_third_stage_output s q) ≠ q := by
  refine ⟨rfl, rfl, ?_, ?_⟩
  · exact fun hcontra => hp hcontra.symm
  · exact fun hcontra => hq hcontra.symm

/-- Claim C4, witness: the theorem applied to a concrete pointer state. -/
theorem stage_output_accessors_alias_filters_witness :
    get_second_stage_output_p ⟨1, 2, 3, 4, 5, 6, 7⟩ =
      get_second_stage_filter_p ⟨1, 2, 3, 4, 5, 6, 7⟩ ∧
    get_third_stage_output_p ⟨1, 2, 3, 4, 5, 6, 7⟩ =
      get_third_stage_filter_p ⟨1, 2, 3, 4, 5, 6, 7⟩ ∧
    get_second_stage_output_p (allocate_second_stage_output ⟨1, 2, 3, 4, 5, 6, 7⟩ 10) ≠ 10 ∧
    get_third_stage_output_p (allocate_third_stage_output ⟨1, 2, 3, 4, 5, 6, 7⟩ 11) ≠ 11 :=
  stage_output_accessors_alias_filters ⟨1, 2, 3, 4, 5, 6, 7⟩ 10 11
    (by decide) (by decide)

/-- Claim C6: evaluation of call_decimate's branch structure.  At
num_taps_per_filter = 2048, num_freqs = 2, maxThreadsPerBlock = 1024 the
product 4096 exceeds 2 * 1024, and the source falls into its first branch,
which contains only a TODO comment: no kernel is launched, but contrary to
the claim no configuration error is reported either (the selection has no
error action at all).  The other two branches behave as claimed: above
maxThreadsPerBlock the large variant launches, otherwise the small one. -/
theorem call_decimate_selection_eval :
    call_decimate_select 2048 2 1024 = DecSelect.noLaunch ∧
    call_decimate_select 1024 2 1024 = DecSelect.launch2048 ∧
    call_decimate_select 512 2 1024 = DecSelect.launch1024 := by
  decide

/-- Claim C7, amended: send_timing always serialises the sequence number and
the measured decimate_kernel_timing_ms (a nonnegative elapsed time computed
by stop_timing from the kernel_start and stop events); no failure path
substitutes the sentinel -1, and the SigProcPacket carries no status enum. -/
theorem timing_message_reports_measured_time (seq : ℕ) (t : ℚ) (ht : 0 ≤ t) :
    send_timing_msg seq t = ⟨seq, t⟩ ∧ (send_timing_msg seq t).kernelTime ≠ -1 := by
  refine ⟨rfl, ?_⟩
  show t ≠ -1
  intro hcontra
  rw [hcontra] at ht
  norm_num at ht

/-- Claim C7, witness: the amended theorem at sequence 7 with measured kernel
time 5 ms. -/
theorem timing_message_reports_measured_time_witness :
    send_timing_msg 7 5 = ⟨7, 5⟩ ∧ (send_timing_msg 7 5).kernelTime ≠ -1 :=
  timing_message_reports_measured_time 7 5 (by norm_num)

/-- Claim C7, counterexample to the claim as frozen: a sequence that fails
kernel selection (2048 taps * 2 freqs on a 1024-thread device falls into the
empty TODO branch) still gets a timing message carrying the measured time
(here 5 ms), not the sentinel -1, and the message structure has no status
field. -/
theorem timing_sentinel_counterexample :
    call_decimate_select 2048 2 1024 = DecSelect.noLaunch ∧
    (send_timing_msg 7 5).kernelTime ≠ -1 := by
  constructor
  · decide
  · show (5 : ℚ) ≠ -1
    norm_num

/-- Claim C8: in initial_memcpy_callback_handler, the ack message is sent
strictly before the kernel_start event is recorded — send_ack precedes
start_decimate_timing in the handler's program order, so the ack timestamp
precedes the kernel_start event for every completed sequence. -/
theorem ack_precedes_kernel_start (sequenceNum : ℕ) :
    Precedes (Ev.ackSent sequenceNum) Ev.kernelStartRecorded
      (initial_memcpy_handler_trace sequenceNum) := by
  intro j hj
  match j with
  | 0 =>
    simp [initial_memcpy_handler_trace, send_ack_trace,
      start_decimate_timing_trace] at hj
  | 1 => exact ⟨0, by omega, rfl⟩
  | n + 2 =>
    simp [initial_memcpy_handler_trace, send_ack_trace,
      start_decimate_timing_trace] at hj

/-- Claim C8, witness: the ordering at sequence number 3. -/
theorem ack_precedes_kernel_start_witness :
    Precedes (Ev.ackSent 3) Ev.kernelStartRecorded
      (initial_memcpy_handler_trace 3) :=
  ack_precedes_kernel_start 3

/-- Claim C9: in the per-sequence pipeline trace, the shared-memory slot
removal (inside clear_device_and_destroy, run by the postprocess worker of the
stream-completion callback) happens only after the ack for that sequence has
been sent (by the copy-complete callback): every occurrence of shrMemRemoved
is preceded by the ack. -/
theorem slot_release_after_ack (sequenceNum : ℕ) :
    Precedes (Ev.ackSent sequenceNum) Ev.shrMemRemoved
      (sequence_trace sequenceNum) := by
  have htr : sequence_trace sequenceNum =
      [Ev.h2dCopyDone, Ev.ackSent sequenceNum, Ev.kernelStartRecorded,
        Ev.stage1Launched, Ev.stage2Launched, Ev.stage3Launched,
        Ev.d2hCopyDone, Ev.stopRecorded, Ev.stopTimingDone,
        Ev.timingSent sequenceNum, Ev.deviceBuffersFreed, Ev.eventsDestroyed,
        Ev.streamDestroyed, Ev.shrMemRemoved, Ev.shrMemHandlerDeleted,
        Ev.instanceDeleted] := rfl
  rw [htr]
  intro j hj
  have hlen : j < 16 := by
    by_contra hge
    push_neg at hge
    rw [List.get?_eq_none.2 (by simpa using hge)] at hj
    exact Option.noConfusion hj
  interval_cases j <;>
    first
      | exact ⟨1, by omega, rfl⟩
      | simp_all

/-- Claim C9, witness: the ordering at sequence number 3. -/
theorem slot_release_after_ack_witness :
    Precedes (Ev.ackSent 3) Ev.shrMemRemoved (sequence_trace 3) :=
  slot_release_after_ack 3

/-- Claim C10, amended: teardown is not idempotent.  After
clear_device_and_destroy has run once, every resource is released; a second
invocation on the same instance passes the already-freed handles to
cudaFree / cudaEventDestroy / cudaStreamDestroy and re-runs the
shared-memory removal on the deleted handler, so every release reports an
error rather than being a no-op (the resource flags, already all dead, do
remain all dead). -/
theorem second_teardown_reports_errors (s : DevResources) :
    (clear_device_and_destroy s).1 = allResourcesDead ∧
    clear_device_and_destroy (clear_device_and_destroy s).1 =
      (allResourcesDead, true) :=
  ⟨rfl, rfl⟩

/-- Claim C10, witness: the amended theorem at the fully-live instance. -/
theorem second_teardown_reports_errors_witness :
    (clear_device_and_destroy allResourcesLive).1 = allResourcesDead ∧
    clear_device_and_destroy (clear_device_and_destroy allResourcesLive).1 =
      (allResourcesDead, true) :=
  second_teardown_reports_errors allResourcesLive

/-- Claim C10, counterexample to the claim as frozen: invoking teardown a
second time on a fully torn-down instance is not failure-free — the error
flag of the second run is set (the first cudaFree of the second run already
receives a freed pointer). -/
theorem teardown_not_idempotent_counterexample :
    (clear_device_and_destroy (clear_device_and_destroy allResourcesLive).1).2 = true := by
  decide
